import Mathlib

/-!
Verification of the SpaceCoastDevs/bbs TUI application (`main.go`) against its
natural-language specification.

The repository's `main.go` holds two variants of the program:
* variant A (first half of the file): screens Splash / List / PostDetail,
  the detail screen shows metadata fields of the selected post;
* variant B (second half): screens Splash / List, a `viewport` showing the
  latest post rendered through `stripTags`, `transformLinksToFootnotes` and
  the `glamour` renderer.

Pure Go functions (`transformLinksToFootnotes`, `stripTags`,
`strings.SplitN`, `strings.TrimSpace`) are embedded as executable Lean
functions over `List Char` / `String`.  Effectful collaborators (HTTP
transport, YAML decoder, glamour renderer, the `bubbles` list widget) are
modelled as oracles carried in explicit "world" / "environment" records; the
fetch command and the two `Update` state machines become pure functions of
the world and the incoming message.
-/

set_option maxRecDepth 10000

/-! ### Go error values

`error` values produced with `fmt.Errorf`.  `%w` wrapping is kept
structurally so that "wraps the first recorded error" is expressible. -/

inductive GoError : Type where
  /-- an error built with `fmt.Errorf` without `%w`, carrying its message -/
  | errorf (msg : String) : GoError
  /-- an error built with `fmt.Errorf` whose format ends in `: %w`:
      message prefix plus wrapped cause -/
  | wrap (msg : String) (cause : GoError) : GoError
deriving DecidableEq, Repr

/-- `e` is the error `f` itself or a single `fmt.Errorf("...: %w", f)` wrap
around it. -/
def errWrapsOrIs (e f : GoError) : Prop :=
  e = f ∨ ∃ s, e = GoError.wrap s f

/-! ### The Text Transform (`transformLinksToFootnotes`, main.go variant B)

The Go function applies
`regexp.MustCompile` of the pattern: bracket, one-or-more non-bracket
characters (group 1), close bracket, open paren, one-or-more non-paren
characters (group 2), close paren —
with `ReplaceAllStringFunc`.  Because each character class excludes its own
closing delimiter, the regex engine's leftmost match is exactly: at the
first position where it succeeds, take `[`, the maximal run of non-`]`
characters (non-empty), `]`, `(`, the maximal run of non-`)` characters
(non-empty), `)`.  `linkMatchAt` decides a match anchored at the head of the
character list and returns (group 1, group 2, remainder). -/

def linkMatchAt : List Char → Option (List Char × List Char × List Char)
  | '[' :: rest =>
    let text := rest.takeWhile (fun c => c ≠ ']')
    if text.isEmpty then none
    else
      match rest.dropWhile (fun c => c ≠ ']') with
      | ']' :: '(' :: rest2 =>
        let url := rest2.takeWhile (fun c => c ≠ ')')
        if url.isEmpty then none
        else
          match rest2.dropWhile (fun c => c ≠ ')') with
          | ')' :: rest3 => some (text, url, rest3)
          | _ => none
      | _ => none
  | _ => none

/-- `strconv.Atoi` accepts the string: optional sign followed by a non-empty
run of decimal digits.  (Range errors on > 64-bit values are not modelled;
the only caller is a branch that is unreachable, see `isAlreadyMarker`.) -/
def goAtoiAccepts (s : List Char) : Bool :=
  match s with
  | '+' :: ds => !ds.isEmpty && ds.all (fun c => c.isDigit)
  | '-' :: ds => !ds.isEmpty && ds.all (fun c => c.isDigit)
  | ds => !ds.isEmpty && ds.all (fun c => c.isDigit)

/-- the guard `strings.HasPrefix(linkText, "[") && strings.HasSuffix(linkText, "]")`
plus `strconv.Atoi(linkText[1:len(linkText)-1])` succeeding.  Note that the
regex capture group for the link text excludes `]`, so the suffix test can
never hold: this guard is dead code in the Go program. -/
def isAlreadyMarker (text : List Char) : Bool :=
  (decide (text.take 1 = ['['])) &&
  (decide (text.getLast? = some ']')) &&
  goAtoiAccepts (text.drop 1).dropLast

/-- the guard `strings.HasPrefix(url, "#fn:") || strings.HasPrefix(url, "#fnref:")`. -/
def isFootnoteURL (url : List Char) : Bool :=
  decide (url.take 4 = "#fn:".data) || decide (url.take 7 = "#fnref:".data)

/-- one pass of `re.ReplaceAllStringFunc`: scan left to right; at a match
apply the replacement function (which may skip via the two guards, or
replace with `text [n]` and record the url); otherwise copy the character.
`fuel` bounds recursion; every step consumes at least one character, so
`fuel = length` is exact.  Arguments: fuel, remaining input, next footnote
index (`footnoteIndex`), recorded urls so far (`footnotes`). -/
def scanLinks : Nat → List Char → Nat → List String → (List Char × List String)
  | 0, l, _, fns => (l, fns)
  | fuel + 1, l, idx, fns =>
    match l with
    | [] => ([], fns)
    | c :: rest =>
      match linkMatchAt l with
      | none =>
        let r := scanLinks fuel rest idx fns
        (c :: r.1, r.2)
      | some (text, url, rest3) =>
        if isAlreadyMarker text || isFootnoteURL url then
          let r := scanLinks fuel rest3 idx fns
          (('[' :: text ++ ']' :: '(' :: url ++ [')']) ++ r.1, r.2)
        else
          let r := scanLinks fuel rest3 (idx + 1) (fns ++ [String.mk url])
          ((text ++ (" [" ++ toString idx ++ "]").data) ++ r.1, r.2)

/-- the footnotes block appended when at least one footnote was recorded:
separator, header, then one `[n]: url` line per footnote in ascending n. -/
def footnotesSection (fns : List String) : String :=
  "\n\n---\n**Footnotes:**\n" ++
    String.join (fns.enum.map
      (fun p => "[" ++ toString (p.1 + 1) ++ "]: " ++ p.2 ++ "\n"))

/-- `transformLinksToFootnotes` from main.go: convert inline `[text](url)`
links to `text [n]` plus a trailing footnotes block. -/
def transformLinksToFootnotes (markdownContent : String) : String :=
  let r := scanLinks markdownContent.data.length markdownContent.data 1 []
  let transformedContent := String.mk r.1
  if r.2.isEmpty then transformedContent
  else transformedContent ++ footnotesSection r.2

/-- the input contains an occurrence of the bracket-paren link pattern:
some suffix position carries a regex match. -/
def anyLinkMatch : List Char → Bool
  | [] => false
  | c :: rest => (linkMatchAt (c :: rest)).isSome || anyLinkMatch rest

def hasLinkPattern (s : String) : Bool := anyLinkMatch s.data

/-! basic lemmas about the scanner -/

theorem scanLinks_no_match (fuel : Nat) :
    ∀ (l : List Char) (idx : Nat) (fns : List String),
      l.length ≤ fuel → anyLinkMatch l = false →
      scanLinks fuel l idx fns = (l, fns) := by
  induction fuel with
  | zero =>
    intro l idx fns hlen _
    have : l = [] := List.length_eq_zero.mp (Nat.le_zero.mp hlen)
    subst this
    rfl
  | succ fuel ih =>
    intro l idx fns hlen hno
    match l with
    | [] => rfl
    | c :: rest =>
      have hmatch : linkMatchAt (c :: rest) = none := by
        cases hm : linkMatchAt (c :: rest) with
        | none => rfl
        | some v =>
          exfalso
          simp [anyLinkMatch, hm] at hno
      have hrest : anyLinkMatch rest = false := by
        simp [anyLinkMatch] at hno
        exact hno.2
      have hlen' : rest.length ≤ fuel := by
        simpa [List.length_cons, Nat.succ_le_succ_iff] using hlen
      simp [scanLinks, hmatch, ih rest idx fns hlen' hrest]

/-- on an input with no occurrence of the link pattern the transform is the
identity and records no footnotes. -/
theorem transform_eq_of_no_match (s : String) (h : hasLinkPattern s = false) :
    transformLinksToFootnotes s = s := by
  unfold transformLinksToFootnotes
  rw [scanLinks_no_match s.data.length s.data 1 [] (Nat.le_refl _) h]
  simp

theorem scanLinks_nil (fuel idx : Nat) (fns : List String) :
    scanLinks fuel [] idx fns = ([], fns) := by
  cases fuel <;> rfl

theorem takeWhile_of_all_append {α : Type} (p : α → Bool) (l₁ l₂ : List α) (x : α)
    (h : l₁.all p = true) (hx : p x = false) :
    (l₁ ++ x :: l₂).takeWhile p = l₁ ∧ (l₁ ++ x :: l₂).dropWhile p = x :: l₂ := by
  induction l₁ with
  | nil => simp [List.takeWhile, List.dropWhile, hx]
  | cons a l ih =>
    simp only [List.all_cons, Bool.and_eq_true] at h
    obtain ⟨h1, h2⟩ := ih h.2
    simp [List.takeWhile_cons, List.dropWhile_cons, h.1, h1, h2]

/-- a whole-string link whose url begins with `#fn:` or `#fnref:` is left
verbatim by the transform (the second skip guard), with no footnote block. -/
theorem transform_skips_footnote_url (s : String) (text url : List Char)
    (hdata : s.data = '[' :: (text ++ ']' :: '(' :: (url ++ [')'])))
    (htext : text.all (fun c => c ≠ ']') = true)
    (hurl : url.all (fun c => c ≠ ')') = true)
    (hne : text ≠ [])
    (hfn : isFootnoteURL url = true) :
    transformLinksToFootnotes s = s := by
  obtain ⟨ht, hd⟩ := takeWhile_of_all_append (fun c => decide (c ≠ ']')) text
    ('(' :: (url ++ [')'])) ']' htext (by simp)
  obtain ⟨ht2, hd2⟩ := takeWhile_of_all_append (fun c => decide (c ≠ ')')) url
    ([] : List Char) ')' hurl (by simp)
  have hune : url ≠ [] := by
    intro h
    subst h
    simp [isFootnoteURL] at hfn
  have hmatch : linkMatchAt s.data = some (text, url, []) := by
    rw [hdata]
    simp only [linkMatchAt, ht, hd, ht2, hd2]
    simp [hne, hune]
  have hfuel : s.data.length = (text ++ ']' :: '(' :: (url ++ [')'])).length + 1 := by
    rw [hdata]; rfl
  unfold transformLinksToFootnotes
  rw [hfuel]
  conv_lhs => rw [hdata]
  rw [show scanLinks ((text ++ ']' :: '(' :: (url ++ [')'])).length + 1)
        ('[' :: (text ++ ']' :: '(' :: (url ++ [')']))) 1 []
      = (('[' :: text ++ ']' :: '(' :: url ++ [')']) ++
          (scanLinks (text ++ ']' :: '(' :: (url ++ [')'])).length [] 1 []).1,
         (scanLinks (text ++ ']' :: '(' :: (url ++ [')'])).length [] 1 []).2) from by
    have : linkMatchAt ('[' :: (text ++ ']' :: '(' :: (url ++ [')']))) = some (text, url, []) := by
      rw [← hdata]; exact hmatch
    simp [scanLinks, this, hfn]]
  rw [scanLinks_nil]
  simp only [List.isEmpty_nil, if_true]
  apply String.ext
  simp [hdata]

theorem linkMatchAt_ne_bracket (c : Char) (rest : List Char) (hc : c ≠ '[') :
    linkMatchAt (c :: rest) = none := by
  unfold linkMatchAt
  split
  · rename_i rest2 heq
    injection heq with h1 h2
    exact absurd h1 hc
  · rfl

/-- a successful match reconstructs the exact shape of its input. -/
theorem linkMatchAt_some_shape {l t u r : List Char}
    (h : linkMatchAt l = some (t, u, r)) :
    l = '[' :: (t ++ ']' :: '(' :: (u ++ ')' :: r)) := by
  unfold linkMatchAt at h
  split at h
  · rename_i rest
    dsimp only at h
    split_ifs at h with h1
    split at h
    · rename_i rest2 heq
      split_ifs at h with h2
      split at h
      · rename_i rest3 heq2
        rw [Option.some_inj] at h
        injection h with ht h3
        injection h3 with hu hr
        subst ht hu hr
        have e1 := List.takeWhile_append_dropWhile (fun c => decide (c ≠ ']')) rest
        rw [heq] at e1
        have e2 := List.takeWhile_append_dropWhile (fun c => decide (c ≠ ')')) rest2
        rw [heq2] at e2
        rw [e2, e1]
      · exact absurd h (by simp)
    · exact absurd h (by simp)
  · rename_i hnb
    exact absurd h (by simp)

theorem linkMatchAt_some_length {l t u r : List Char}
    (h : linkMatchAt l = some (t, u, r)) : r.length < l.length := by
  rw [linkMatchAt_some_shape h]
  simp
  omega

/-- the scan does not depend on the fuel once the fuel covers the input
length (`n` is the induction measure). -/
theorem scanLinks_fuel_irrel :
    ∀ (n : Nat) (l : List Char), l.length ≤ n →
      ∀ (fuel1 fuel2 idx : Nat) (fns : List String),
        l.length ≤ fuel1 → l.length ≤ fuel2 →
        scanLinks fuel1 l idx fns = scanLinks fuel2 l idx fns := by
  intro n
  induction n with
  | zero =>
    intro l hl fuel1 fuel2 idx fns h1 h2
    have : l = [] := List.length_eq_zero.mp (Nat.le_zero.mp hl)
    subst this
    rw [scanLinks_nil, scanLinks_nil]
  | succ n ih =>
    intro l hl fuel1 fuel2 idx fns h1 h2
    cases l with
    | nil => rw [scanLinks_nil, scanLinks_nil]
    | cons c rest =>
      have hrl : rest.length + 1 ≤ n + 1 := by simpa using hl
      cases fuel1 with
      | zero => simp at h1
      | succ f1 =>
        cases fuel2 with
        | zero => simp at h2
        | succ f2 =>
          have hr1 : rest.length + 1 ≤ f1 + 1 := by simpa using h1
          have hr2 : rest.length + 1 ≤ f2 + 1 := by simpa using h2
          cases hm : linkMatchAt (c :: rest) with
          | none =>
            simp only [scanLinks, hm]
            rw [ih rest (by omega) f1 f2 idx fns (by omega) (by omega)]
          | some v =>
            obtain ⟨t, u, r3⟩ := v
            have hlen : r3.length < rest.length + 1 := by
              simpa using linkMatchAt_some_length hm
            simp only [scanLinks, hm]
            split_ifs with hg
            · rw [ih r3 (by omega) f1 f2 idx fns (by omega) (by omega)]
            · rw [ih r3 (by omega) f1 f2 (idx + 1) (fns ++ [String.mk u])
                (by omega) (by omega)]

/-- a prefix containing no `[` is copied verbatim by the scan; the rest of
the scan proceeds on the remainder with the leftover fuel. -/
theorem scanLinks_copy_bracket_free :
    ∀ pre : List Char, pre.all (fun c => c ≠ '[') = true →
      ∀ (fuel idx : Nat) (fns : List String) (l : List Char),
        scanLinks fuel (pre ++ l) idx fns =
          (pre ++ (scanLinks (fuel - pre.length) l idx fns).1,
           (scanLinks (fuel - pre.length) l idx fns).2) := by
  intro pre
  induction pre with
  | nil =>
    intro _ fuel idx fns l
    simp
  | cons c pre ih =>
    intro hall fuel idx fns l
    simp only [List.all_cons, Bool.and_eq_true] at hall
    obtain ⟨hc, hpre⟩ := hall
    cases fuel with
    | zero => simp [scanLinks, scanLinks_nil]
    | succ f =>
      have hm : linkMatchAt (c :: (pre ++ l)) = none :=
        linkMatchAt_ne_bracket c (pre ++ l) (by simpa using hc)
      simp only [List.cons_append, scanLinks, hm]
      rw [ih hpre f idx fns l]
      simp [Nat.succ_sub_succ]

/-- the scanner's treatment of a match whose url begins with `#fn:` or
`#fnref:`, at any scanner state (any fuel, counter, recorded footnotes) and
with an arbitrary remainder: the match is emitted verbatim, nothing is
recorded, and scanning continues after it. -/
theorem scanLinks_fn_skip_head (fuel idx : Nat) (fns : List String)
    (text url rest : List Char) (hne : text ≠ [])
    (htext : text.all (fun c => c ≠ ']') = true)
    (hurl : url.all (fun c => c ≠ ')') = true)
    (hfn : isFootnoteURL url = true) :
    scanLinks (fuel + 1) ('[' :: (text ++ ']' :: '(' :: (url ++ ')' :: rest))) idx fns =
      (('[' :: text ++ ']' :: '(' :: url ++ [')']) ++ (scanLinks fuel rest idx fns).1,
       (scanLinks fuel rest idx fns).2) := by
  obtain ⟨ht, hd⟩ := takeWhile_of_all_append (fun c => decide (c ≠ ']')) text
    ('(' :: (url ++ ')' :: rest)) ']' htext (by simp)
  obtain ⟨ht2, hd2⟩ := takeWhile_of_all_append (fun c => decide (c ≠ ')')) url
    rest ')' hurl (by simp)
  have hune : url ≠ [] := by
    intro h
    subst h
    simp [isFootnoteURL] at hfn
  have hmatch : linkMatchAt ('[' :: (text ++ ']' :: '(' :: (url ++ ')' :: rest)))
      = some (text, url, rest) := by
    simp only [linkMatchAt, ht, hd, ht2, hd2]
    simp [hne, hune]
  simp only [scanLinks, hmatch, hfn, Bool.or_true, if_true]

/-- a url beginning with `#fn:` or `#fnref:` is never recorded as a
footnote, whatever the input. -/
theorem scanLinks_fns_fn_free :
    ∀ (fuel : Nat) (l : List Char) (idx : Nat) (fns : List String),
      (∀ u ∈ fns, isFootnoteURL u.data = false) →
      ∀ u ∈ (scanLinks fuel l idx fns).2, isFootnoteURL u.data = false := by
  intro fuel
  induction fuel with
  | zero => exact fun l idx fns h u hu => h u hu
  | succ fuel ih =>
    intro l idx fns h u hu
    cases l with
    | nil => exact h u hu
    | cons c rest =>
      cases hm : linkMatchAt (c :: rest) with
      | none =>
        simp only [scanLinks, hm] at hu
        exact ih rest idx fns h u hu
      | some v =>
        obtain ⟨t, u2, r3⟩ := v
        simp only [scanLinks, hm] at hu
        by_cases hg : (isAlreadyMarker t || isFootnoteURL u2) = true
        · rw [if_pos hg] at hu
          exact ih r3 idx fns h u hu
        · rw [if_neg hg] at hu
          simp only [Bool.or_eq_true, not_or, Bool.not_eq_true] at hg
          refine ih r3 (idx + 1) (fns ++ [String.mk u2]) ?_ u hu
          intro v hv
          rcases List.mem_append.mp hv with hv | hv
          · exact h v hv
          · have hv2 : v = String.mk u2 := by simpa using hv
            subst hv2
            simpa using hg.2

/-- the footnote urls the transform records on input `s`. -/
def recordedFootnotes (s : String) : List String :=
  (scanLinks s.data.length s.data 1 []).2

/-- C3: applying the Text Transform to the exact input
`"See [Site](https://example.com) for more."` produces the body
`"See Site [1] for more."` followed by the appended footnotes block
(separator line and `**Footnotes:**` header) containing the line
`[1]: https://example.com`. -/
theorem c3_transform_example :
    transformLinksToFootnotes "See [Site](https://example.com) for more." =
      "See Site [1] for more." ++ "\n\n---\n**Footnotes:**\n" ++
        "[1]: https://example.com\n" := by decide

/-- C4: for every input string containing no occurrence of the bracket-paren
link pattern, the output of the Text Transform equals the input exactly, with
no footnotes block appended. -/
theorem c4_no_pattern_identity (s : String) (h : hasLinkPattern s = false) :
    transformLinksToFootnotes s = s :=
  transform_eq_of_no_match s h

theorem c4_no_pattern_identity_witness :
    hasLinkPattern "no links [here] or (there)" = false ∧
      transformLinksToFootnotes "no links [here] or (there)" =
        "no links [here] or (there)" :=
  ⟨by decide, c4_no_pattern_identity "no links [here] or (there)" (by decide)⟩

/-- C5 counterexample: the Text Transform is not idempotent.  On the input
`"[a](b)(c)"` the first application produces `"a [1](c)"` plus a footnote
block, and the second application re-transforms the produced `[1](c)`
(the already-a-marker guard compares the capture group, which can never
contain `]`, against the bracketed form, so it never fires), adding a second
footnote block. -/
theorem c5_idempotence_counterexample :
    transformLinksToFootnotes (transformLinksToFootnotes "[a](b)(c)") ≠
        transformLinksToFootnotes "[a](b)(c)" ∧
      transformLinksToFootnotes "[a](b)(c)" =
        "a [1](c)\n\n---\n**Footnotes:**\n[1]: b\n" ∧
      transformLinksToFootnotes (transformLinksToFootnotes "[a](b)(c)") =
        "a 1 [1]\n\n---\n**Footnotes:**\n[1]: b\n\n\n---\n**Footnotes:**\n[1]: c\n" :=
  ⟨by decide, by decide, by decide⟩

/-- C5 (amended): the Text Transform is idempotent on every input whose
first-application output contains no further occurrence of the link
pattern; and links whose url begins with `#fn:` or `#fnref:` are never
transformed: (i) on EVERY input, no recorded footnote url begins with
`#fn:`/`#fnref:`, and (ii) wherever such a link occurs after a
bracket-free prefix, with an arbitrary remainder, the transformed body
reproduces the prefix and the link verbatim and the recorded footnotes are
exactly those of the remainder.  In general a second application may
re-transform a `[n](...)` sequence formed by the first application's
output (see the counterexample). -/
theorem c5_conditional_idempotence :
    (∀ s : String, hasLinkPattern (transformLinksToFootnotes s) = false →
      transformLinksToFootnotes (transformLinksToFootnotes s) =
        transformLinksToFootnotes s) ∧
    (∀ (s u : String), u ∈ recordedFootnotes s → isFootnoteURL u.data = false) ∧
    (∀ (s : String) (pre text url rest : List Char),
      s.data = pre ++ '[' :: (text ++ ']' :: '(' :: (url ++ ')' :: rest)) →
      pre.all (fun c => c ≠ '[') = true →
      text ≠ [] → text.all (fun c => c ≠ ']') = true →
      url.all (fun c => c ≠ ')') = true → isFootnoteURL url = true →
      (scanLinks s.data.length s.data 1 []).1 =
        pre ++ ('[' :: text ++ ']' :: '(' :: url ++ [')']) ++
          (scanLinks rest.length rest 1 []).1 ∧
      recordedFootnotes s = recordedFootnotes (String.mk rest)) := by
  refine ⟨fun s h => transform_eq_of_no_match (transformLinksToFootnotes s) h,
    fun s u hu => scanLinks_fns_fn_free s.data.length s.data 1 []
      (by intro v hv; simp at hv) u hu, ?_⟩
  intro s pre text url rest hdata hpre hne htext hurl hfn
  obtain ⟨sd⟩ := s
  simp only [recordedFootnotes] at *
  have hdata2 : sd = pre ++ '[' :: (text ++ ']' :: '(' :: (url ++ ')' :: rest)) := hdata
  subst hdata2
  have harith : (pre ++ '[' :: (text ++ ']' :: '(' :: (url ++ ')' :: rest))).length
      - pre.length = (text ++ ']' :: '(' :: (url ++ ')' :: rest)).length + 1 := by
    simp [List.length_append]
  have hirrel : scanLinks (text ++ ']' :: '(' :: (url ++ ')' :: rest)).length
        rest 1 [] = scanLinks rest.length rest 1 [] := by
    apply scanLinks_fuel_irrel (text ++ ']' :: '(' :: (url ++ ')' :: rest)).length
      rest (by simp [List.length_append]; omega) <;> (simp [List.length_append]; try omega)
  rw [scanLinks_copy_bracket_free pre hpre _ 1 [], harith,
    scanLinks_fn_skip_head _ 1 [] text url rest hne htext hurl hfn, hirrel]
  simp

theorem c5_conditional_idempotence_witness :
    transformLinksToFootnotes
        (transformLinksToFootnotes "See [Site](https://example.com) for more.") =
      transformLinksToFootnotes "See [Site](https://example.com) for more." ∧
    isFootnoteURL "u".data = false ∧
    (scanLinks "see [x](#fn:1) end".data.length "see [x](#fn:1) end".data 1 []).1 =
      "see ".data ++ ('[' :: "x".data ++ ']' :: '(' :: "#fn:1".data ++ [')']) ++
        (scanLinks " end".data.length " end".data 1 []).1 ∧
    recordedFootnotes "see [x](#fn:1) end" = recordedFootnotes (String.mk " end".data) :=
  ⟨c5_conditional_idempotence.1 "See [Site](https://example.com) for more." (by decide),
   c5_conditional_idempotence.2.1 "see [x](#fn:1) and [y](u) end" "u" (by decide),
   (c5_conditional_idempotence.2.2 "see [x](#fn:1) end" "see ".data "x".data
     "#fn:1".data " end".data (by decide) (by decide) (by decide) (by decide)
     (by decide) (by decide)).1,
   (c5_conditional_idempotence.2.2 "see [x](#fn:1) end" "see ".data "x".data
     "#fn:1".data " end".data (by decide) (by decide) (by decide) (by decide)
     (by decide) (by decide)).2⟩

/-! ### Go standard-library string helpers used by the fetcher -/

/-- first occurrence of `sep` in the list: `some (before, after)` splits
around the leftmost non-overlapping instance. -/
def splitOnceAux (sep : List Char) : List Char → Option (List Char × List Char)
  | [] => none
  | c :: rest =>
    if sep.isPrefixOf (c :: rest) then some ([], (c :: rest).drop sep.length)
    else
      match splitOnceAux sep rest with
      | none => none
      | some (before, after) => some (c :: before, after)

/-- `strings.SplitN(s, sep, n)` for `n ≥ 1` and non-empty `sep`: split around
the first `n-1` leftmost non-overlapping instances of `sep`; the last part
holds the unsplit remainder. -/
def goSplitNAux (sep : List Char) : Nat → List Char → List (List Char)
  | 0, _ => []
  | 1, l => [l]
  | n + 2, l =>
    match splitOnceAux sep l with
    | none => [l]
    | some (before, after) => before :: goSplitNAux sep (n + 1) after

def goSplitN (s sep : String) (n : Nat) : List String :=
  (goSplitNAux sep.data n s.data).map String.mk

/-- `unicode.IsSpace` restricted to the characters that can appear here:
ASCII whitespace plus NEL and NBSP.  (The further Unicode space category is
not reachable in the claims and is not modelled.) -/
def goIsSpace (c : Char) : Bool :=
  c = ' ' || c = '\t' || c = '\n' || c = Char.ofNat 11 || c = Char.ofNat 12 ||
    c = '\r' || c = Char.ofNat 0x85 || c = Char.ofNat 0xA0

/-- `strings.TrimSpace`. -/
def goTrimSpace (s : String) : String :=
  String.mk (((s.data.dropWhile goIsSpace).reverse.dropWhile goIsSpace).reverse)

/-- `err.Error()` for our error values: `fmt.Errorf("...: %w", cause)`
renders as the prefix, a colon-space, then the cause's message. -/
def goErrorString : GoError → String
  | .errorf m => m
  | .wrap m cause => m ++ ": " ++ goErrorString cause

/-! ### Data model of the fetcher (main.go variant B) -/

/-- `PostMetadata`: YAML frontmatter fields plus the post body (`Content`).
`time.Time` is modelled as an integer timeline point; `Time.After` is `<`
on that line. -/
structure PostMetadata where
  postTitle : String
  excerpt : String
  publishDate : Int
  category : String
  tags : List String
  slug : String
  image : String
  content : String
deriving DecidableEq, Repr

/-- `GitHubContent`: one entry of the directory-listing JSON. -/
structure GitHubContent where
  name : String
  path : String
  type : String
  downloadURL : String
deriving DecidableEq, Repr

/-- the completion message value `postsLoadedMsg`. -/
structure PostsLoadedMsg where
  posts : List PostMetadata
  err : Option GoError
deriving DecidableEq, Repr

def repoOwner : String := "SpaceCoastDevs"
def repoName : String := "space-coast.dev"
def repoAPIPath : String := "src/content/post"

/-- `fmt.Sprintf(githubAPIContentsURLFormat, repoOwner, repoName, repoAPIPath)`. -/
def apiURL : String :=
  "https://api.github.com/repos/" ++ repoOwner ++ "/" ++ repoName ++
    "/contents/" ++ repoAPIPath

/-- outcome of the stage-1/2 listing request (`http.NewRequestWithContext`,
`client.Do`, status check, `io.ReadAll`, `json.Unmarshal`), as decided by
the external HTTP/JSON collaborators. -/
inductive ListingOutcome : Type where
  | reqError (e : GoError)
  | httpError (e : GoError)
  | badStatus (status : String)
  | readError (e : GoError)
  | jsonError (e : GoError)
  | ok (contents : List GitHubContent)

/-- outcome of one per-document download (`http.NewRequestWithContext`,
`client.Do`, status check, `io.ReadAll`). -/
inductive FileOutcome : Type where
  | reqError (e : GoError)
  | httpError (e : GoError)
  | badStatus (status : String)
  | readError (e : GoError)
  | body (s : String)

/-- the world the fetch runs against: the listing outcome, the per-URL
download outcome, and the YAML decoder collaborator (`yaml.Unmarshal` into
`PostMetadata`; the `content` field it returns is immediately overwritten
by the caller, mirroring the Go assignment). -/
structure FetchWorld where
  listing : ListingOutcome
  download : String → FileOutcome
  parseYAML : String → Except GoError PostMetadata

/-- accumulator of the per-entry loop: collected posts, `firstError`, and
the diagnostic log lines emitted so far. -/
structure FetchState where
  posts : List PostMetadata
  firstError : Option GoError
  logs : List String
deriving DecidableEq, Repr

/-- `if firstError == nil { firstError = e }`. -/
def recordFirst (fe : Option GoError) (e : GoError) : Option GoError :=
  match fe with
  | none => some e
  | some f => some f

/-- `strings.HasSuffix(s, suff)`. -/
def goHasSuffix (s suff : String) : Bool :=
  suff.data.isSuffixOf s.data

/-- body of the `for _, content := range contents` loop of `fetchPostsCmd`. -/
def processEntry (w : FetchWorld) (st : FetchState) (c : GitHubContent) : FetchState :=
  if c.type = "file" ∧ goHasSuffix c.name ".mdx" = true ∧ c.downloadURL ≠ "" then
    match w.download c.downloadURL with
    | .reqError e =>
      { st with
        firstError := recordFirst st.firstError (.wrap ("creating request for " ++ c.downloadURL) e),
        logs := st.logs ++ ["Error creating request for " ++ c.downloadURL ++ ": " ++ goErrorString e] }
    | .httpError e =>
      { st with
        firstError := recordFirst st.firstError (.wrap ("fetching " ++ c.downloadURL) e),
        logs := st.logs ++ ["Error fetching " ++ c.downloadURL ++ ": " ++ goErrorString e] }
    | .badStatus status =>
      { st with
        firstError := recordFirst st.firstError (.errorf ("fetching " ++ c.downloadURL ++ ": status " ++ status)),
        logs := st.logs ++ ["Error fetching " ++ c.downloadURL ++ ": status " ++ status] }
    | .readError e =>
      { st with
        firstError := recordFirst st.firstError (.wrap ("reading body for " ++ c.downloadURL) e),
        logs := st.logs ++ ["Error reading body for " ++ c.downloadURL ++ ": " ++ goErrorString e] }
    | .body s =>
      let parts := goSplitN s "---" 3
      if parts.length < 3 then
        { st with
          firstError := recordFirst st.firstError (.errorf ("no frontmatter in " ++ c.downloadURL)),
          logs := st.logs ++ ["Could not find frontmatter in " ++ c.downloadURL] }
      else
        match w.parseYAML (parts.getD 1 "") with
        | .error e =>
          { st with
            firstError := recordFirst st.firstError (.wrap ("unmarshalling YAML for " ++ c.downloadURL) e),
            logs := st.logs ++ ["Error unmarshalling YAML for " ++ c.downloadURL ++ ": " ++ goErrorString e] }
        | .ok meta =>
          { st with posts := st.posts ++ [{ meta with content := goTrimSpace (parts.getD 2 "") }] }
  else if c.type = "file" ∧ goHasSuffix c.name ".mdx" = true then
    { st with logs := st.logs ++ ["Skipping file " ++ c.name ++ " as it has no download_url"] }
  else st

/-- `posts[i].PublishDate.After(posts[j].PublishDate)` — the comparator
handed to `sort.Slice`. -/
def goAfter (a b : PostMetadata) : Bool :=
  decide (b.publishDate < a.publishDate)

/-- Go's sortedness post-condition for a comparator `less`: no element is
`less` than its predecessor. -/
def GoSortedBy {α : Type} (less : α → α → Bool) (l : List α) : Prop :=
  l.Chain' (fun a b => less b a = false)

/-- the documented contract of `sort.Slice(posts, less)`: the result is a
permutation of the input, sorted for `less`.  Stability is deliberately NOT
part of the contract — `sort.Slice` is documented as unstable ("equal
elements may be reversed from their original order"); `sort.SliceStable`
would be required for that. -/
def SortSliceOK (f : List PostMetadata → List PostMetadata) : Prop :=
  ∀ l, (f l).Perm l ∧ GoSortedBy goAfter (f l)

/-- error value of the stage-1/2 early returns, when the listing fails. -/
def listingStageError (w : FetchWorld) : Option GoError :=
  match w.listing with
  | .reqError e => some (.wrap ("creating API request for " ++ apiURL) e)
  | .httpError e => some (.wrap ("fetching API " ++ apiURL) e)
  | .badStatus status => some (.errorf ("fetching API " ++ apiURL ++ ": status " ++ status))
  | .readError e => some (.wrap ("reading API response body from " ++ apiURL) e)
  | .jsonError e => some (.wrap ("unmarshalling API JSON from " ++ apiURL) e)
  | .ok _ => none

def initialFetchState : FetchState := ⟨[], none, []⟩

/-- the loop of `fetchPostsCmd` over the listing entries. -/
def runEntries (w : FetchWorld) (contents : List GitHubContent) : FetchState :=
  contents.foldl (processEntry w) initialFetchState

/-- `fetchPostsCmd` as a function of the world: the completion message and
the diagnostic log.  `sortFn` stands for the in-place `sort.Slice` call with
the `PublishDate.After` comparator and is quantified over `SortSliceOK` in
the theorems. -/
def fetchPostsResult (sortFn : List PostMetadata → List PostMetadata)
    (w : FetchWorld) : PostsLoadedMsg × List String :=
  match w.listing with
  | .reqError e =>
    let msg := GoError.wrap ("creating API request for " ++ apiURL) e
    ({ posts := [], err := some msg }, [goErrorString msg])
  | .httpError e =>
    let msg := GoError.wrap ("fetching API " ++ apiURL) e
    ({ posts := [], err := some msg }, [goErrorString msg])
  | .badStatus status =>
    let msg := GoError.errorf ("fetching API " ++ apiURL ++ ": status " ++ status)
    ({ posts := [], err := some msg }, [goErrorString msg])
  | .readError e =>
    let msg := GoError.wrap ("reading API response body from " ++ apiURL) e
    ({ posts := [], err := some msg }, [goErrorString msg])
  | .jsonError e =>
    let msg := GoError.wrap ("unmarshalling API JSON from " ++ apiURL) e
    ({ posts := [], err := some msg }, [goErrorString msg])
  | .ok contents =>
    let st := runEntries w contents
    let sorted := sortFn st.posts
    match st.firstError with
    | some f =>
      if sorted.length = 0 then
        ({ posts := [], err := some (.wrap "failed to load any posts, first error" f) }, st.logs)
      else ({ posts := sorted, err := none }, st.logs)
    | none => ({ posts := sorted, err := none }, st.logs)

/-- the documents that successfully parsed, in arrival order. -/
def collectedPosts (w : FetchWorld) : List PostMetadata :=
  match w.listing with
  | .ok contents => (runEntries w contents).posts
  | _ => []

/-- the `firstError` recorded across the whole fetch: the stage-1/2 error if
the listing failed, otherwise the first per-entry error of the loop. -/
def firstRecordedError (w : FetchWorld) : Option GoError :=
  match w.listing with
  | .ok contents => (runEntries w contents).firstError
  | _ => listingStageError w

/-! ### Concrete realizations of the `sort.Slice` contract

`goodSort` is a stable realization (plain insertion sort); `revTiesSort` is
an unstable-on-ties realization (insertion sort of the reversed input, which
reverses runs of equal keys).  Both satisfy `SortSliceOK`, i.e. both are
behaviours the `sort.Slice` documentation allows. -/

/-- descending-by-date comparison as a total preorder. -/
def postGE (a b : PostMetadata) : Prop := b.publishDate ≤ a.publishDate

instance : DecidableRel postGE :=
  fun a b => inferInstanceAs (Decidable (b.publishDate ≤ a.publishDate))

instance : IsTotal PostMetadata postGE :=
  ⟨fun a b => le_total b.publishDate a.publishDate⟩

instance : IsTrans PostMetadata postGE :=
  ⟨fun _ _ _ h1 h2 => le_trans h2 h1⟩

/-- executable version of `GoSortedBy` (used for kernel evaluation). -/
def goSortedByBool {α : Type} (less : α → α → Bool) : List α → Bool
  | [] => true
  | [_] => true
  | a :: b :: t => (!(less b a)) && goSortedByBool less (b :: t)

theorem goSortedBy_iff {α : Type} (less : α → α → Bool) (l : List α) :
    GoSortedBy less l ↔ goSortedByBool less l = true := by
  induction l with
  | nil => simp [GoSortedBy, goSortedByBool]
  | cons a t ih =>
    cases t with
    | nil => simp [GoSortedBy, goSortedByBool]
    | cons b t2 =>
      unfold GoSortedBy at ih ⊢
      rw [List.chain'_cons, goSortedByBool, Bool.and_eq_true, Bool.not_eq_true', ih]

instance (l : List PostMetadata) : Decidable (GoSortedBy goAfter l) :=
  decidable_of_decidable_of_iff (goSortedBy_iff goAfter l).symm

def goodSort (l : List PostMetadata) : List PostMetadata :=
  List.insertionSort postGE l

def revTiesSort (l : List PostMetadata) : List PostMetadata :=
  List.insertionSort postGE l.reverse

theorem sorted_to_goSorted {l : List PostMetadata}
    (h : List.Sorted postGE l) : GoSortedBy goAfter l := by
  refine List.Chain'.imp ?_ h.chain'
  intro a b hab
  simp only [goAfter, decide_eq_false_iff_not, not_lt]
  exact hab

theorem goodSort_ok : SortSliceOK goodSort :=
  fun l => ⟨List.perm_insertionSort postGE l,
    sorted_to_goSorted (List.sorted_insertionSort postGE l)⟩

theorem revTiesSort_ok : SortSliceOK revTiesSort :=
  fun l => ⟨(List.perm_insertionSort postGE l.reverse).trans l.reverse_perm,
    sorted_to_goSorted (List.sorted_insertionSort postGE l.reverse)⟩

/-- reduction helper: the fetch on a world whose listing succeeded and whose
per-entry loop recorded no error. -/
theorem fetchPostsResult_ok_none (sortFn : List PostMetadata → List PostMetadata)
    (w : FetchWorld) (contents : List GitHubContent) (hL : w.listing = .ok contents)
    (hfe : (runEntries w contents).firstError = none) :
    fetchPostsResult sortFn w =
      ({ posts := sortFn (runEntries w contents).posts, err := none },
        (runEntries w contents).logs) := by
  unfold fetchPostsResult
  rw [hL]
  dsimp only
  rw [hfe]

/-- reduction helper: the fetch on a world whose listing succeeded and whose
per-entry loop recorded a first error. -/
theorem fetchPostsResult_ok_some (sortFn : List PostMetadata → List PostMetadata)
    (w : FetchWorld) (contents : List GitHubContent) (f : GoError)
    (hL : w.listing = .ok contents)
    (hfe : (runEntries w contents).firstError = some f) :
    fetchPostsResult sortFn w =
      if (sortFn (runEntries w contents).posts).length = 0 then
        ({ posts := [],
           err := some (.wrap "failed to load any posts, first error" f) },
         (runEntries w contents).logs)
      else ({ posts := sortFn (runEntries w contents).posts, err := none },
         (runEntries w contents).logs) := by
  unfold fetchPostsResult
  rw [hL]
  dsimp only
  rw [hfe]

/-! ### concrete sample data used in witnesses and counterexamples -/

def mkEntry (nm url : String) : GitHubContent :=
  { name := nm, path := "src/content/post/" ++ nm, type := "file", downloadURL := url }

/-- arrival order in `exampleWorld` is `p21, p23, p22` (publish years
2021, 2023, 2022); `q..` are the same posts after the loop stored the
trimmed body into `content`. -/
def p21 : PostMetadata :=
  { postTitle := "first", excerpt := "e1", publishDate := 20210101,
    category := "go", tags := ["a"], slug := "first", image := "", content := "" }

def p23 : PostMetadata :=
  { postTitle := "second", excerpt := "e2", publishDate := 20230601,
    category := "go", tags := [], slug := "second", image := "", content := "" }

def p22 : PostMetadata :=
  { postTitle := "third", excerpt := "e3", publishDate := 20220301,
    category := "", tags := ["b"], slug := "third", image := "", content := "" }

def q21 : PostMetadata := { p21 with content := "body a" }
def q23 : PostMetadata := { p23 with content := "body b" }
def q22 : PostMetadata := { p22 with content := "body c" }

def exampleContents : List GitHubContent :=
  [mkEntry "a.mdx" "https://raw.example/a.mdx",
   mkEntry "b.mdx" "https://raw.example/b.mdx",
   mkEntry "c.mdx" "https://raw.example/c.mdx"]

def exampleWorld : FetchWorld :=
  { listing := .ok exampleContents,
    download := fun u =>
      if u = "https://raw.example/a.mdx" then .body "---\ntitle: first\n---\nbody a"
      else if u = "https://raw.example/b.mdx" then .body "---\ntitle: second\n---\nbody b"
      else if u = "https://raw.example/c.mdx" then .body "---\ntitle: third\n---\nbody c"
      else .httpError (.errorf "no such host"),
    parseYAML := fun s =>
      if s = "\ntitle: first\n" then .ok p21
      else if s = "\ntitle: second\n" then .ok p23
      else if s = "\ntitle: third\n" then .ok p22
      else .error (.errorf "yaml: unmarshal errors") }

/-- two posts with EQUAL publish timestamps, arriving `tieA` then `tieB`. -/
def tieA : PostMetadata :=
  { postTitle := "tie a", excerpt := "", publishDate := 500,
    category := "", tags := [], slug := "tie-a", image := "", content := "" }

def tieB : PostMetadata :=
  { postTitle := "tie b", excerpt := "", publishDate := 500,
    category := "", tags := [], slug := "tie-b", image := "", content := "" }

def tieQA : PostMetadata := { tieA with content := "body ta" }
def tieQB : PostMetadata := { tieB with content := "body tb" }

def tieWorld : FetchWorld :=
  { listing := .ok [mkEntry "ta.mdx" "https://raw.example/ta.mdx",
                    mkEntry "tb.mdx" "https://raw.example/tb.mdx"],
    download := fun u =>
      if u = "https://raw.example/ta.mdx" then .body "---\ntitle: tie a\n---\nbody ta"
      else if u = "https://raw.example/tb.mdx" then .body "---\ntitle: tie b\n---\nbody tb"
      else .httpError (.errorf "no such host"),
    parseYAML := fun s =>
      if s = "\ntitle: tie a\n" then .ok tieA
      else if s = "\ntitle: tie b\n" then .ok tieB
      else .error (.errorf "yaml: unmarshal errors") }

/-- a world whose listing succeeds with one entry whose download fails:
zero documents parse, one per-entry error. -/
def failWorld : FetchWorld :=
  { listing := .ok [mkEntry "x.mdx" "https://raw.example/x.mdx"],
    download := fun _ => .httpError (.errorf "timeout"),
    parseYAML := fun _ => .error (.errorf "yaml: unmarshal errors") }

/-- one good document (entry `a.mdx` of `exampleWorld`) plus one unrelated
per-entry failure. -/
def mixedWorld : FetchWorld :=
  { exampleWorld with
    listing := .ok [mkEntry "a.mdx" "https://raw.example/a.mdx",
                    mkEntry "x.mdx" "https://raw.example/x.mdx"] }

/-- a world where the stage-1 listing request itself fails. -/
def errWorld : FetchWorld :=
  { listing := .reqError (.errorf "parse url: invalid control character"),
    download := fun _ => .httpError (.errorf "timeout"),
    parseYAML := fun _ => .error (.errorf "yaml: unmarshal errors") }

/-- a `.mdx` file entry whose `download_url` is empty. -/
def emptyURLEntry : GitHubContent :=
  { name := "empty.mdx", path := "src/content/post/empty.mdx", type := "file",
    downloadURL := "" }

/-- C10: every completion message produced by the fetch satisfies: a non-nil
error and a non-empty document list are mutually exclusive — if the error
field is non-nil the posts field is nil, and if the posts field is non-empty
the error field is nil. -/
theorem c10_err_posts_exclusive (sortFn : List PostMetadata → List PostMetadata)
    (w : FetchWorld) :
    ((fetchPostsResult sortFn w).1.err ≠ none →
      (fetchPostsResult sortFn w).1.posts = []) ∧
    ((fetchPostsResult sortFn w).1.posts ≠ [] →
      (fetchPostsResult sortFn w).1.err = none) := by
  obtain ⟨L, dl, py⟩ := w
  cases L with
  | ok contents =>
    cases hfe : (runEntries ⟨.ok contents, dl, py⟩ contents).firstError with
    | none =>
      rw [fetchPostsResult_ok_none sortFn ⟨.ok contents, dl, py⟩ contents rfl hfe]
      simp
    | some f =>
      rw [fetchPostsResult_ok_some sortFn ⟨.ok contents, dl, py⟩ contents f rfl hfe]
      by_cases hlen :
          (sortFn (runEntries ⟨.ok contents, dl, py⟩ contents).posts).length = 0 <;>
        simp [hlen]
  | reqError e => simp [fetchPostsResult]
  | httpError e => simp [fetchPostsResult]
  | badStatus status => simp [fetchPostsResult]
  | readError e => simp [fetchPostsResult]
  | jsonError e => simp [fetchPostsResult]

theorem c10_err_posts_exclusive_witness :
    (fetchPostsResult goodSort errWorld).1.posts = [] ∧
      (fetchPostsResult goodSort mixedWorld).1.err = none :=
  ⟨(c10_err_posts_exclusive goodSort errWorld).1 (by decide),
   (c10_err_posts_exclusive goodSort mixedWorld).2 (by decide)⟩

/-- C2: the fetch returns a total failure wrapping the first recorded error
iff zero documents parsed successfully AND at least one per-entry or
earlier-stage error occurred; otherwise it returns the collected documents
(sorted) as a success with nil error. -/
theorem c2_total_failure_iff (sortFn : List PostMetadata → List PostMetadata)
    (hs : SortSliceOK sortFn) (w : FetchWorld) :
    ((fetchPostsResult sortFn w).1.err ≠ none ↔
      (collectedPosts w = [] ∧ firstRecordedError w ≠ none)) ∧
    ((fetchPostsResult sortFn w).1.err = none →
      (fetchPostsResult sortFn w).1.posts = sortFn (collectedPosts w)) ∧
    (∀ e, (fetchPostsResult sortFn w).1.err = some e →
      ∃ f, firstRecordedError w = some f ∧ errWrapsOrIs e f) := by
  obtain ⟨L, dl, py⟩ := w
  cases L with
  | ok contents =>
    have hc : collectedPosts ⟨.ok contents, dl, py⟩ =
        (runEntries ⟨.ok contents, dl, py⟩ contents).posts := rfl
    have hf : firstRecordedError ⟨.ok contents, dl, py⟩ =
        (runEntries ⟨.ok contents, dl, py⟩ contents).firstError := rfl
    rw [hc, hf]
    cases hfe : (runEntries ⟨.ok contents, dl, py⟩ contents).firstError with
    | none =>
      rw [fetchPostsResult_ok_none sortFn ⟨.ok contents, dl, py⟩ contents rfl hfe]
      simp
    | some f =>
      rw [fetchPostsResult_ok_some sortFn ⟨.ok contents, dl, py⟩ contents f rfl hfe]
      by_cases hlen :
          (sortFn (runEntries ⟨.ok contents, dl, py⟩ contents).posts).length = 0
      · have hnil : (runEntries ⟨.ok contents, dl, py⟩ contents).posts = [] := by
          apply List.length_eq_zero.mp
          rw [← (hs (runEntries ⟨.ok contents, dl, py⟩ contents).posts).1.length_eq]
          exact hlen
        rw [if_pos hlen]
        refine ⟨by simp [hnil], by simp, ?_⟩
        intro e he
        simp only [Option.some_inj] at he
        exact ⟨f, rfl, .inr ⟨"failed to load any posts, first error", he.symm⟩⟩
      · have hne : (runEntries ⟨.ok contents, dl, py⟩ contents).posts ≠ [] := by
          intro h
          apply hlen
          rw [h]
          simpa using ((hs []).1.length_eq)
        rw [if_neg hlen]
        exact ⟨by simp [hne], by simp, by simp⟩
  | reqError e =>
    refine ⟨by simp [fetchPostsResult, collectedPosts, firstRecordedError, listingStageError],
      by simp [fetchPostsResult], ?_⟩
    intro e' he'
    simp only [fetchPostsResult, Option.some_inj] at he'
    exact ⟨_, rfl, .inl he'.symm⟩
  | httpError e =>
    refine ⟨by simp [fetchPostsResult, collectedPosts, firstRecordedError, listingStageError],
      by simp [fetchPostsResult], ?_⟩
    intro e' he'
    simp only [fetchPostsResult, Option.some_inj] at he'
    exact ⟨_, rfl, .inl he'.symm⟩
  | badStatus status =>
    refine ⟨by simp [fetchPostsResult, collectedPosts, firstRecordedError, listingStageError],
      by simp [fetchPostsResult], ?_⟩
    intro e' he'
    simp only [fetchPostsResult, Option.some_inj] at he'
    exact ⟨_, rfl, .inl he'.symm⟩
  | readError e =>
    refine ⟨by simp [fetchPostsResult, collectedPosts, firstRecordedError, listingStageError],
      by simp [fetchPostsResult], ?_⟩
    intro e' he'
    simp only [fetchPostsResult, Option.some_inj] at he'
    exact ⟨_, rfl, .inl he'.symm⟩
  | jsonError e =>
    refine ⟨by simp [fetchPostsResult, collectedPosts, firstRecordedError, listingStageError],
      by simp [fetchPostsResult], ?_⟩
    intro e' he'
    simp only [fetchPostsResult, Option.some_inj] at he'
    exact ⟨_, rfl, .inl he'.symm⟩

/-- witness for C2: `failWorld` (no document parses, one download failure)
is a total failure wrapping that failure's cause; `mixedWorld` (one good
document, one unrelated per-entry failure) is a success with exactly that
document and nil error. -/
theorem c2_total_failure_iff_witness :
    (fetchPostsResult goodSort failWorld).1.err ≠ none ∧
      (fetchPostsResult goodSort mixedWorld).1.err = none ∧
      (fetchPostsResult goodSort mixedWorld).1.posts = [q21] := by
  have h1 := c2_total_failure_iff goodSort goodSort_ok failWorld
  have h2 := c2_total_failure_iff goodSort goodSort_ok mixedWorld
  refine ⟨h1.1.mpr ⟨by decide, by decide⟩, ?_, ?_⟩
  · by_contra hne
    exact absurd (h2.1.mp hne).1 (by decide)
  · have herr : (fetchPostsResult goodSort mixedWorld).1.err = none := by
      by_contra hne
      exact absurd (h2.1.mp hne).1 (by decide)
    rw [h2.2.1 herr]
    decide

/-! ### the skipped empty-`download_url` entry (C6) -/

/-- two loop states agreeing on everything the fetch result depends on
(the log may differ). -/
def EqNoLogs (s t : FetchState) : Prop :=
  s.posts = t.posts ∧ s.firstError = t.firstError

theorem processEntry_congr (w : FetchWorld) (c : GitHubContent) {s t : FetchState}
    (h : EqNoLogs s t) : EqNoLogs (processEntry w s c) (processEntry w t c) := by
  obtain ⟨hp, hf⟩ := h
  unfold processEntry EqNoLogs
  split_ifs with h1 h2
  · cases w.download c.downloadURL with
    | body bs =>
      dsimp only
      split_ifs with h3
      · simp [hp, hf]
      · cases w.parseYAML ((goSplitN bs "---" 3).getD 1 "") with
        | error e => simp [hp, hf]
        | ok meta => simp [hp, hf]
    | reqError e => simp [hp, hf]
    | httpError e => simp [hp, hf]
    | badStatus status => simp [hp, hf]
    | readError e => simp [hp, hf]
  · simp [hp, hf]
  · simp [hp, hf]

theorem runFold_congr (w : FetchWorld) (l : List GitHubContent) :
    ∀ s t, EqNoLogs s t →
      EqNoLogs (l.foldl (processEntry w) s) (l.foldl (processEntry w) t) := by
  induction l with
  | nil => exact fun s t h => h
  | cons c l ih => exact fun s t h => ih _ _ (processEntry_congr w c h)

theorem processEntry_empty_url (w : FetchWorld) (st : FetchState) (c : GitHubContent)
    (h1 : c.type = "file") (h2 : goHasSuffix c.name ".mdx" = true)
    (h3 : c.downloadURL = "") :
    processEntry w st c =
      { st with
        logs := st.logs ++ ["Skipping file " ++ c.name ++ " as it has no download_url"] } := by
  have hc1 : ¬(c.type = "file" ∧ goHasSuffix c.name ".mdx" = true ∧ c.downloadURL ≠ "") :=
    fun h => h.2.2 h3
  simp [processEntry, hc1, h1, h2]
  intro hcontra
  exact absurd h3 hcontra

/-- C6: a listing entry that is a file with the `.mdx` suffix but an empty
download locator is skipped with exactly the per-entry log note, and its
presence changes neither the collected documents nor the recorded first
error — hence the whole fetch result is unchanged (so the skip is never
surfaced as the fetch's first error, in particular not when it is the only
anomaly of the fetch). -/
theorem c6_empty_url_entry_inert (w : FetchWorld) (c : GitHubContent)
    (sortFn : List PostMetadata → List PostMetadata)
    (h1 : c.type = "file") (h2 : goHasSuffix c.name ".mdx" = true)
    (h3 : c.downloadURL = "") :
    (∀ st, processEntry w st c =
      { st with
        logs := st.logs ++ ["Skipping file " ++ c.name ++ " as it has no download_url"] }) ∧
    (∀ l₁ l₂ : List GitHubContent,
      (fetchPostsResult sortFn { w with listing := .ok (l₁ ++ c :: l₂) }).1 =
        (fetchPostsResult sortFn { w with listing := .ok (l₁ ++ l₂) }).1) := by
  obtain ⟨L₀, dl, py⟩ := w
  refine ⟨fun st => processEntry_empty_url _ st c h1 h2 h3, ?_⟩
  intro l₁ l₂
  have key : EqNoLogs
      (runEntries ⟨.ok (l₁ ++ c :: l₂), dl, py⟩ (l₁ ++ c :: l₂))
      (runEntries ⟨.ok (l₁ ++ c :: l₂), dl, py⟩ (l₁ ++ l₂)) := by
    unfold runEntries
    rw [List.foldl_append, List.foldl_append, List.foldl_cons,
      processEntry_empty_url _ _ c h1 h2 h3]
    exact runFold_congr _ l₂ _ _ ⟨rfl, rfl⟩
  have keyB : EqNoLogs
      (runEntries ⟨.ok (l₁ ++ c :: l₂), dl, py⟩ (l₁ ++ c :: l₂))
      (runEntries ⟨.ok (l₁ ++ l₂), dl, py⟩ (l₁ ++ l₂)) := key
  obtain ⟨hp, hf⟩ := keyB
  cases hfe : (runEntries ⟨.ok (l₁ ++ l₂), dl, py⟩ (l₁ ++ l₂)).firstError with
  | none =>
    rw [fetchPostsResult_ok_none sortFn ⟨.ok (l₁ ++ c :: l₂), dl, py⟩ (l₁ ++ c :: l₂) rfl
        (hf.trans hfe),
      fetchPostsResult_ok_none sortFn ⟨.ok (l₁ ++ l₂), dl, py⟩ (l₁ ++ l₂) rfl hfe, hp]
  | some f =>
    rw [fetchPostsResult_ok_some sortFn ⟨.ok (l₁ ++ c :: l₂), dl, py⟩ (l₁ ++ c :: l₂) f rfl
        (hf.trans hfe),
      fetchPostsResult_ok_some sortFn ⟨.ok (l₁ ++ l₂), dl, py⟩ (l₁ ++ l₂) f rfl hfe, hp]
    split_ifs <;> rfl

theorem c6_empty_url_entry_inert_witness :
    (processEntry mixedWorld initialFetchState emptyURLEntry =
      { initialFetchState with
        logs := initialFetchState.logs ++
          ["Skipping file " ++ emptyURLEntry.name ++ " as it has no download_url"] }) ∧
    (fetchPostsResult goodSort
        { mixedWorld with
          listing := .ok ([] ++ emptyURLEntry ::
            [mkEntry "a.mdx" "https://raw.example/a.mdx"]) }).1 =
      (fetchPostsResult goodSort
        { mixedWorld with
          listing := .ok ([] ++ [mkEntry "a.mdx" "https://raw.example/a.mdx"]) }).1 := by
  have h := c6_empty_url_entry_inert mixedWorld emptyURLEntry goodSort
    (by decide) (by decide) (by decide)
  exact ⟨h.1 initialFetchState, h.2 [] [mkEntry "a.mdx" "https://raw.example/a.mdx"]⟩

/-! ### sortedness of the returned entry list (C1) -/

/-- with the three pairwise-distinct publish timestamps of the example,
every output the `sort.Slice` contract permits is the unique descending
arrangement. -/
theorem sortFn_example_triple (sortFn : List PostMetadata → List PostMetadata)
    (hs : SortSliceOK sortFn) : sortFn [q21, q23, q22] = [q23, q22, q21] := by
  obtain ⟨hperm, hsort⟩ := hs [q21, q23, q22]
  have hlen : (sortFn [q21, q23, q22]).length = 3 := by
    rw [hperm.length_eq]
    rfl
  have hnd : (sortFn [q21, q23, q22]).Nodup := hperm.symm.nodup (by decide)
  have hsub : ∀ x ∈ sortFn [q21, q23, q22], x ∈ [q21, q23, q22] :=
    fun x hx => hperm.subset hx
  revert hperm hsort hlen hnd hsub
  generalize sortFn [q21, q23, q22] = out
  intro hperm hsort hlen hnd hsub
  rcases out with _ | ⟨a, out⟩
  · simp at hlen
  rcases out with _ | ⟨b, out⟩
  · simp at hlen
  rcases out with _ | ⟨c, out⟩
  · simp at hlen
  rcases out with _ | ⟨d, out⟩
  swap
  · simp at hlen
  have ha := hsub a (by simp)
  have hb := hsub b (by simp)
  have hc := hsub c (by simp)
  simp only [List.mem_cons, List.not_mem_nil, or_false] at ha hb hc
  rcases ha with rfl | rfl | rfl <;> rcases hb with rfl | rfl | rfl <;>
    rcases hc with rfl | rfl | rfl <;>
    first
      | rfl
      | exact absurd hsort (by decide)
      | exact absurd hnd (by decide)

/-- C1 (amended): for every fetch that returns success the entry list is
sorted by publish timestamp descending (Go's post-condition for the
`PublishDate.After` comparator), and on the example world with distinct
timestamps 2021-01-01, 2023-06-01, 2022-03-01 (arrival order) the result is
exactly the 2023, 2022, 2021 order.  Stability on equal timestamps is NOT
part of the claim — see `c1_stability_counterexample`. -/
theorem c1_success_sorted_descending (sortFn : List PostMetadata → List PostMetadata)
    (hs : SortSliceOK sortFn) :
    (∀ w : FetchWorld, (fetchPostsResult sortFn w).1.err = none →
      GoSortedBy goAfter (fetchPostsResult sortFn w).1.posts) ∧
    (fetchPostsResult sortFn exampleWorld).1 =
      { posts := [q23, q22, q21], err := none } := by
  constructor
  · intro w herr
    obtain ⟨L, dl, py⟩ := w
    cases L with
    | ok contents =>
      cases hfe : (runEntries ⟨.ok contents, dl, py⟩ contents).firstError with
      | none =>
        rw [fetchPostsResult_ok_none sortFn ⟨.ok contents, dl, py⟩ contents rfl hfe]
        exact (hs _).2
      | some f =>
        rw [fetchPostsResult_ok_some sortFn ⟨.ok contents, dl, py⟩ contents f rfl hfe] at herr ⊢
        by_cases hlen :
            (sortFn (runEntries ⟨.ok contents, dl, py⟩ contents).posts).length = 0
        · rw [if_pos hlen] at herr
          simp at herr
        · rw [if_neg hlen]
          exact (hs _).2
    | reqError e => simp [fetchPostsResult] at herr
    | httpError e => simp [fetchPostsResult] at herr
    | badStatus status => simp [fetchPostsResult] at herr
    | readError e => simp [fetchPostsResult] at herr
    | jsonError e => simp [fetchPostsResult] at herr
  · have hrun : runEntries exampleWorld exampleContents =
        { posts := [q21, q23, q22], firstError := none, logs := [] } := by decide
    rw [fetchPostsResult_ok_none sortFn exampleWorld exampleContents rfl
      (by rw [hrun])]
    rw [hrun]
    simp only
    rw [sortFn_example_triple sortFn hs]

theorem c1_success_sorted_descending_witness :
    GoSortedBy goAfter (fetchPostsResult goodSort exampleWorld).1.posts ∧
      (fetchPostsResult goodSort exampleWorld).1 =
        { posts := [q23, q22, q21], err := none } :=
  ⟨(c1_success_sorted_descending goodSort goodSort_ok).1 exampleWorld (by decide),
   (c1_success_sorted_descending goodSort goodSort_ok).2⟩

/-- C1 counterexample: stability fails.  `revTiesSort` satisfies the full
documented contract of `sort.Slice` (`SortSliceOK`), yet on `tieWorld` —
where the two documents `tieQA, tieQB` arrive in that order with EQUAL
publish timestamps — the fetch succeeds with the pair reversed, so entries
with equal publish timestamps do not keep their relative arrival order. -/
theorem c1_stability_counterexample :
    SortSliceOK revTiesSort ∧
      collectedPosts tieWorld = [tieQA, tieQB] ∧
      tieQA.publishDate = tieQB.publishDate ∧
      tieQA ≠ tieQB ∧
      (fetchPostsResult revTiesSort tieWorld).1 =
        { posts := [tieQB, tieQA], err := none } :=
  ⟨revTiesSort_ok, by decide, by decide, by decide, by decide⟩

/-! ### `stripTags` (main.go variant B)

The Go regex is an alternation of three patterns, replaced by the empty
string: an angle-bracket tag (bracket, non-`>` run, `>`), a brace-delimited
template expression, and one literal import statement.  The three
alternatives start with distinct characters, so leftmost-first alternation
is position-wise disjoint. -/

def tagMatchAt : List Char → Option (List Char)
  | '<' :: rest =>
    let t := rest.takeWhile (fun c => c ≠ '>')
    if t.isEmpty then none
    else
      match rest.dropWhile (fun c => c ≠ '>') with
      | '>' :: rest2 => some rest2
      | _ => none
  | _ => none

def braceMatchAt : List Char → Option (List Char)
  | '{' :: rest =>
    let t := rest.takeWhile (fun c => c ≠ '}')
    if t.isEmpty then none
    else
      match rest.dropWhile (fun c => c ≠ '}') with
      | '}' :: rest2 => some rest2
      | _ => none
  | _ => none

/-- the literal third alternative of the `stripTags` regex (`\/` and `\.`
are escapes for plain `/` and `.`). -/
def importLiteral : String :=
  "import CallToAction from \x27~/components/widgets/CallToAction.astro\x27;"

def importMatchAt (l : List Char) : Option (List Char) :=
  if importLiteral.data.isPrefixOf l then some (l.drop importLiteral.data.length)
  else none

/-- a match of the `stripTags` alternation anchored at the head, returning
the remainder after the match. -/
def stripMatchAt (l : List Char) : Option (List Char) :=
  match tagMatchAt l with
  | some r => some r
  | none =>
    match braceMatchAt l with
    | some r => some r
    | none => importMatchAt l

/-- `re.ReplaceAllString(content, "")` for the `stripTags` regex: each
leftmost match is deleted.  `fuel = length` is exact (every step consumes at
least one character). -/
def scanStrip : Nat → List Char → List Char
  | 0, l => l
  | _ + 1, [] => []
  | fuel + 1, c :: rest =>
    match stripMatchAt (c :: rest) with
    | none => c :: scanStrip fuel rest
    | some rest2 => scanStrip fuel rest2

/-- `stripTags` from main.go: remove angle-bracket tags, brace-delimited
template expressions and the known import-statement literal. -/
def stripTags (content : String) : String :=
  String.mk (scanStrip content.data.length content.data)

/-! ### shared message and command vocabulary of the two `Update` machines

`tea.Msg` values the program handles, and the `tea.Cmd` values it returns.
A `tea.Cmd` is an opaque effect; the model keeps the constructor identity
(`tick`, `fetchPostsCmd`, `tea.Quit`, `tea.EnterAltScreen`) plus, for the
widget-forwarding path of variant A, an opaque widget command that the
model drops (the `bubbles` list never emits quits or fetches). -/

inductive TeaCmd : Type where
  | tick
  | fetchPosts
  | quit
  | enterAltScreen
deriving DecidableEq, Repr

inductive TeaMsg : Type where
  | windowSize (width height : Int)
  | key (s : String)
  | tick
  | postsLoaded (m : PostsLoadedMsg)
deriving DecidableEq, Repr

/-! ### the scroll viewport collaborator (`bubbles/viewport`)

Modelled by the fields and operations the program uses: geometry, a scroll
offset clamped to the content, and the content string. -/

structure Viewport where
  width : Int
  height : Int
  yOffset : Int
  content : String
deriving DecidableEq, Repr

def vpNew (w h : Int) : Viewport := ⟨w, h, 0, ""⟩

/-- number of display lines of the content (split on newline). -/
def vpLineCount (s : String) : Int :=
  (s.data.filter (fun c => c = '\n')).length + 1

def vpMaxYOffset (vp : Viewport) : Int :=
  max 0 (vpLineCount vp.content - vp.height)

def vpSetYOffset (vp : Viewport) (y : Int) : Viewport :=
  { vp with yOffset := max 0 (min y (vpMaxYOffset vp)) }

def vpScrollUp (vp : Viewport) (n : Int) : Viewport := vpSetYOffset vp (vp.yOffset - n)

def vpScrollDown (vp : Viewport) (n : Int) : Viewport := vpSetYOffset vp (vp.yOffset + n)

def vpGotoTop (vp : Viewport) : Viewport := vpSetYOffset vp 0

def vpGotoBottom (vp : Viewport) : Viewport := vpSetYOffset vp (vpMaxYOffset vp)

def vpSetContent (vp : Viewport) (s : String) : Viewport :=
  let vp2 : Viewport := { vp with content := s }
  if vp2.yOffset > vpMaxYOffset vp2 then vpGotoBottom vp2 else vp2

/-- the `glamour` collaborator: `NewTermRenderer(WithAutoStyle(),
WithWordWrap(width))` either fails or yields a `Render` function that may
itself fail. -/
structure RenderEnv where
  newTermRenderer : Int → Except GoError (String → Except GoError String)

/-! ### the `Update` state machine of main.go variant B (Splash / List,
viewport rendering of the latest post) -/

namespace VariantB

inductive ScreenState : Type where
  | splashScreen
  | listScreen
deriving DecidableEq, Repr

/-- the `model` struct of variant B.  The `bubbles` list widget is used
only through `SetItems`/`Items` in this variant, so it is modelled by its
item list (its internal geometry set by `SetWidth`/`SetHeight` is
collaborator-internal and unobservable here). -/
structure Model where
  currentScreen : ScreenState
  splashMessage : String
  flashMessage : String
  showFlashMessage : Bool
  width : Int
  height : Int
  postList : List PostMetadata
  loadingPosts : Bool
  postsError : Option GoError
  selectedPost : Option PostMetadata
  viewport : Viewport
  ready : Bool
deriving DecidableEq, Repr

def initialModel : Model :=
  { currentScreen := .splashScreen,
    splashMessage := "Welcome to Space Coast Devs",
    flashMessage := "<Press Enter to Continue>",
    showFlashMessage := true,
    width := 0, height := 0,
    postList := [],
    loadingPosts := false,
    postsError := none,
    selectedPost := none,
    viewport := vpNew 0 0,
    ready := false }

/-- the `Update` method of variant B as a pure step function: given the
renderer environment, a model and a message, produce the next model and the
commands handed to `tea.Batch`. -/
def update (env : RenderEnv) (m : Model) : TeaMsg → Model × List TeaCmd
  | .windowSize w h =>
    let m1 := { m with width := w, height := h }
    let m2 :=
      if !m1.ready then
        { m1 with viewport := vpNew w (h - 2), ready := true }
      else
        { m1 with viewport := { m1.viewport with width := w, height := h - 2 } }
    (m2, [])
  | .key s =>
    match m.currentScreen with
    | .splashScreen =>
      if s = "q" ∨ s = "esc" ∨ s = "ctrl+c" then (m, [.quit])
      else if s = "enter" then
        ({ m with currentScreen := .listScreen, loadingPosts := true,
                  postsError := none, postList := [] }, [.fetchPosts])
      else (m, [])
    | .listScreen =>
      if s = "q" ∨ s = "esc" then (m, [.quit])
      else if s = "b" ∨ s = "backspace" then
        ({ m with currentScreen := .splashScreen, showFlashMessage := true,
                  postsError := none }, [.tick])
      else if s = "up" ∨ s = "k" then ({ m with viewport := vpScrollUp m.viewport 1 }, [])
      else if s = "down" ∨ s = "j" then ({ m with viewport := vpScrollDown m.viewport 1 }, [])
      else if s = "pageup" then
        ({ m with viewport := vpScrollUp m.viewport m.viewport.height }, [])
      else if s = "pagedown" then
        ({ m with viewport := vpScrollDown m.viewport m.viewport.height }, [])
      else if s = "home" then ({ m with viewport := vpGotoTop m.viewport }, [])
      else if s = "end" then ({ m with viewport := vpGotoBottom m.viewport }, [])
      else (m, [])
  | .tick =>
    if m.currentScreen = .splashScreen then
      ({ m with showFlashMessage := !m.showFlashMessage }, [.tick])
    else (m, [])
  | .postsLoaded msg =>
    let m1 := { m with loadingPosts := false }
    match msg.err with
    | some e => ({ m1 with postsError := some e, postList := [] }, [])
    | none =>
      let m2 := { m1 with postList := msg.posts, postsError := none }
      match msg.posts with
      | [] => (m2, [])
      | latestPost :: _ =>
        let postContent := transformLinksToFootnotes (stripTags latestPost.content)
        match env.newTermRenderer (m2.viewport.width - 2) with
        | .error _ =>
          ({ m2 with viewport := vpSetContent m2.viewport "Error initializing renderer." }, [])
        | .ok fmtr =>
          match fmtr postContent with
          | .error _ =>
            ({ m2 with viewport := vpSetContent m2.viewport "Error rendering content." }, [])
          | .ok formattedContent =>
            ({ m2 with viewport := vpSetContent m2.viewport formattedContent }, [])

end VariantB

theorem vpSetContent_content (vp : Viewport) (s : String) :
    (vpSetContent vp s).content = s := by
  unfold vpSetContent vpGotoBottom vpSetYOffset
  dsimp only
  split_ifs <;> rfl

/-- C7: on the render invocation (a successful fetch completion with a
non-empty post list), if the `glamour` collaborator cannot be constructed
the viewport content becomes the single fallback line
`"Error initializing renderer."`; if it fails during formatting, the single
fallback line `"Error rendering content."`; on success the content is the
formatter — configured with the viewport wrap width — applied to the Text
Transform of the stripped body (strip, then transform, then format).  In
every case no command is emitted, the screen is unchanged, and input keeps
being processed (a subsequent quit key still yields `tea.Quit`). -/
theorem c7_render_fallback_nonblocking (env : RenderEnv) (m : VariantB.Model)
    (latestPost : PostMetadata) (rest : List PostMetadata) :
    (∀ e, env.newTermRenderer (m.viewport.width - 2) = .error e →
      (VariantB.update env m (.postsLoaded ⟨latestPost :: rest, none⟩)).1.viewport.content =
        "Error initializing renderer.") ∧
    (∀ fmtr e, env.newTermRenderer (m.viewport.width - 2) = .ok fmtr →
      fmtr (transformLinksToFootnotes (stripTags latestPost.content)) = .error e →
      (VariantB.update env m (.postsLoaded ⟨latestPost :: rest, none⟩)).1.viewport.content =
        "Error rendering content.") ∧
    (∀ fmtr out, env.newTermRenderer (m.viewport.width - 2) = .ok fmtr →
      fmtr (transformLinksToFootnotes (stripTags latestPost.content)) = .ok out →
      (VariantB.update env m (.postsLoaded ⟨latestPost :: rest, none⟩)).1.viewport.content = out) ∧
    (VariantB.update env m (.postsLoaded ⟨latestPost :: rest, none⟩)).1.currentScreen =
      m.currentScreen ∧
    (VariantB.update env m (.postsLoaded ⟨latestPost :: rest, none⟩)).2 = [] ∧
    (VariantB.update env
      (VariantB.update env m (.postsLoaded ⟨latestPost :: rest, none⟩)).1 (.key "q")).2 =
      [.quit] := by
  have hq : ∀ m' : VariantB.Model, m'.currentScreen = m.currentScreen →
      (VariantB.update env m' (.key "q")).2 = [.quit] := by
    intro m' hscr
    cases hs : m.currentScreen <;>
      simp [VariantB.update, hscr, hs]
  refine ⟨?_, ?_, ?_, ?_, ?_, ?_⟩
  · intro e he
    simp [VariantB.update, he, vpSetContent_content]
  · intro fmtr e he hr
    simp [VariantB.update, he, hr, vpSetContent_content]
  · intro fmtr out he hr
    simp [VariantB.update, he, hr, vpSetContent_content]
  · cases he : env.newTermRenderer (m.viewport.width - 2) with
    | error e => simp [VariantB.update, he]
    | ok fmtr =>
      cases hr : fmtr (transformLinksToFootnotes (stripTags latestPost.content)) with
      | error e => simp [VariantB.update, he, hr]
      | ok out => simp [VariantB.update, he, hr]
  · cases he : env.newTermRenderer (m.viewport.width - 2) with
    | error e => simp [VariantB.update, he]
    | ok fmtr =>
      cases hr : fmtr (transformLinksToFootnotes (stripTags latestPost.content)) with
      | error e => simp [VariantB.update, he, hr]
      | ok out => simp [VariantB.update, he, hr]
  · apply hq
    cases he : env.newTermRenderer (m.viewport.width - 2) with
    | error e => simp [VariantB.update, he]
    | ok fmtr =>
      cases hr : fmtr (transformLinksToFootnotes (stripTags latestPost.content)) with
      | error e => simp [VariantB.update, he, hr]
      | ok out => simp [VariantB.update, he, hr]

def failingInitEnv : RenderEnv :=
  ⟨fun _ => .error (.errorf "glamour: invalid style")⟩

def failingRenderEnv : RenderEnv :=
  ⟨fun _ => .ok (fun _ => .error (.errorf "glamour: render failure"))⟩

def okRenderEnv : RenderEnv :=
  ⟨fun w => .ok (fun s => .ok ("W" ++ toString w ++ ":" ++ s))⟩

theorem c7_render_fallback_nonblocking_witness :
    (VariantB.update failingInitEnv VariantB.initialModel
        (.postsLoaded ⟨[q21], none⟩)).1.viewport.content = "Error initializing renderer." ∧
    (VariantB.update failingRenderEnv VariantB.initialModel
        (.postsLoaded ⟨[q21], none⟩)).1.viewport.content = "Error rendering content." ∧
    (VariantB.update okRenderEnv VariantB.initialModel
        (.postsLoaded ⟨[q21], none⟩)).1.viewport.content = "W-2:body a" ∧
    (VariantB.update failingInitEnv
      (VariantB.update failingInitEnv VariantB.initialModel
        (.postsLoaded ⟨[q21], none⟩)).1 (.key "q")).2 = [.quit] :=
  ⟨(c7_render_fallback_nonblocking failingInitEnv VariantB.initialModel q21 []).1
      (GoError.errorf "glamour: invalid style") rfl,
   (c7_render_fallback_nonblocking failingRenderEnv VariantB.initialModel q21 []).2.1
      (fun _ => .error (.errorf "glamour: render failure"))
      (GoError.errorf "glamour: render failure") rfl rfl,
   (c7_render_fallback_nonblocking okRenderEnv VariantB.initialModel q21 []).2.2.1
      (fun s => .ok ("W" ++ toString (VariantB.initialModel.viewport.width - 2) ++ ":" ++ s))
      "W-2:body a" rfl rfl,
   (c7_render_fallback_nonblocking failingInitEnv VariantB.initialModel q21 []).2.2.2.2.2⟩

/-- C9: (a) a step of variant B's machine emits the fetch command exactly
when it is the splash screen handling the confirm key — i.e. exactly on an
entry into Listing — and then exactly once; (b) entering Listing happens
only on that step (or by already being there); (c) a fetch completion is
applied to whatever the current state is, regardless of intervening
transitions: on success the list is replaced by the returned entries and the
error cleared, on error the error is stored and the list cleared; (d) the
concrete double-entry trace Splash → Listing → Splash → Listing issues
exactly one fetch on each of the two entries and none in between. -/
theorem c9_fetch_per_listing_entry (env : RenderEnv) :
    (∀ (m : VariantB.Model) (msg : TeaMsg),
      TeaCmd.fetchPosts ∈ (VariantB.update env m msg).2 ↔
        (m.currentScreen = .splashScreen ∧ msg = .key "enter")) ∧
    (∀ m : VariantB.Model, m.currentScreen = .splashScreen →
      (VariantB.update env m (.key "enter")).2.count TeaCmd.fetchPosts = 1 ∧
      (VariantB.update env m (.key "enter")).1.currentScreen = .listScreen) ∧
    (∀ (m : VariantB.Model) (msg : TeaMsg),
      (VariantB.update env m msg).1.currentScreen = .listScreen →
      m.currentScreen = .listScreen ∨
        (m.currentScreen = .splashScreen ∧ msg = .key "enter")) ∧
    (∀ (m : VariantB.Model) (pm : PostsLoadedMsg),
      (pm.err = none →
        (VariantB.update env m (.postsLoaded pm)).1.postList = pm.posts ∧
        (VariantB.update env m (.postsLoaded pm)).1.postsError = none) ∧
      (∀ e, pm.err = some e →
        (VariantB.update env m (.postsLoaded pm)).1.postsError = some e ∧
        (VariantB.update env m (.postsLoaded pm)).1.postList = [])) ∧
    ((VariantB.update env VariantB.initialModel (.key "enter")).2.count
        TeaCmd.fetchPosts = 1 ∧
      (VariantB.update env VariantB.initialModel (.key "enter")).1.currentScreen =
        .listScreen ∧
      (VariantB.update env
          (VariantB.update env VariantB.initialModel (.key "enter")).1
          (.key "b")).2.count TeaCmd.fetchPosts = 0 ∧
      (VariantB.update env
          (VariantB.update env VariantB.initialModel (.key "enter")).1
          (.key "b")).1.currentScreen = .splashScreen ∧
      (VariantB.update env
          (VariantB.update env
            (VariantB.update env VariantB.initialModel (.key "enter")).1
            (.key "b")).1
          (.key "enter")).2.count TeaCmd.fetchPosts = 1 ∧
      (VariantB.update env
          (VariantB.update env
            (VariantB.update env VariantB.initialModel (.key "enter")).1
            (.key "b")).1
          (.key "enter")).1.currentScreen = .listScreen) := by
  have hploaded : ∀ (m : VariantB.Model) (pm : PostsLoadedMsg),
      (VariantB.update env m (.postsLoaded pm)).2 = [] ∧
      (VariantB.update env m (.postsLoaded pm)).1.currentScreen = m.currentScreen := by
    intro m pm
    rcases pm with ⟨posts, err⟩
    cases err with
    | some e => simp [VariantB.update]
    | none =>
      cases posts with
      | nil => simp [VariantB.update]
      | cons p rest =>
        cases he : env.newTermRenderer (m.viewport.width - 2) with
        | error e => simp [VariantB.update, he]
        | ok fmtr =>
          cases hr : fmtr (transformLinksToFootnotes (stripTags p.content)) with
          | error e => simp [VariantB.update, he, hr]
          | ok out => simp [VariantB.update, he, hr]
  refine ⟨?_, ?_, ?_, ?_, ?_⟩
  · intro m msg
    constructor
    · intro hmem
      cases msg with
      | windowSize w h => simp [VariantB.update] at hmem
      | key s =>
        cases hscr : m.currentScreen with
        | splashScreen =>
          simp only [VariantB.update, hscr] at hmem
          split_ifs at hmem with h1 h2
          · simp at hmem
          · exact ⟨rfl, by rw [h2]⟩
          · simp at hmem
        | listScreen =>
          simp only [VariantB.update, hscr] at hmem
          split_ifs at hmem <;> simp at hmem
      | tick =>
        cases hscr : m.currentScreen <;> simp [VariantB.update, hscr] at hmem
      | postsLoaded pm =>
        rw [(hploaded m pm).1] at hmem
        simp at hmem
    · rintro ⟨hscr, rfl⟩
      simp [VariantB.update, hscr]
  · intro m hscr
    constructor <;> simp [VariantB.update, hscr]
  · intro m msg hlist
    cases msg with
    | windowSize w h =>
      left
      rw [← hlist]
      simp only [VariantB.update]
      split_ifs <;> rfl
    | key s =>
      cases hscr : m.currentScreen with
      | splashScreen =>
        simp only [VariantB.update, hscr] at hlist
        split_ifs at hlist with h1 h2
        · dsimp only at hlist
          rw [hscr] at hlist
          simp at hlist
        · exact .inr ⟨rfl, by rw [h2]⟩
        · dsimp only at hlist
          rw [hscr] at hlist
          simp at hlist
      | listScreen => exact .inl rfl
    | tick =>
      left
      rw [← hlist]
      cases hscr : m.currentScreen <;> simp [VariantB.update, hscr]
    | postsLoaded pm =>
      left
      rw [← hlist, (hploaded m pm).2]
  · intro m pm
    constructor
    · intro herr
      rcases pm with ⟨posts, err⟩
      simp only at herr
      subst herr
      cases posts with
      | nil => simp [VariantB.update]
      | cons p rest =>
        cases he : env.newTermRenderer (m.viewport.width - 2) with
        | error e => simp [VariantB.update, he]
        | ok fmtr =>
          cases hr : fmtr (transformLinksToFootnotes (stripTags p.content)) with
          | error e => simp [VariantB.update, he, hr]
          | ok out => simp [VariantB.update, he, hr]
    · intro e herr
      rcases pm with ⟨posts, err⟩
      simp only at herr
      subst herr
      simp [VariantB.update]
  · refine ⟨rfl, rfl, rfl, rfl, rfl, rfl⟩

theorem c9_fetch_per_listing_entry_witness :
    TeaCmd.fetchPosts ∈
      (VariantB.update okRenderEnv VariantB.initialModel (.key "enter")).2 ∧
    (VariantB.update okRenderEnv
        (VariantB.update okRenderEnv
          (VariantB.update okRenderEnv
            (VariantB.update okRenderEnv VariantB.initialModel (.key "enter")).1
            (.key "b")).1
          (.key "enter")).1
        (.postsLoaded ⟨[q21], none⟩)).1.postList = [q21] :=
  ⟨((c9_fetch_per_listing_entry okRenderEnv).1 VariantB.initialModel
      (.key "enter")).mpr ⟨rfl, rfl⟩,
   (((c9_fetch_per_listing_entry okRenderEnv).2.2.2.1
      (VariantB.update okRenderEnv
        (VariantB.update okRenderEnv
          (VariantB.update okRenderEnv VariantB.initialModel (.key "enter")).1
          (.key "b")).1
        (.key "enter")).1
      ⟨[q21], none⟩).1 rfl).1⟩

/-! ### the `Update` state machine of main.go variant A (Splash / List /
PostDetail) -/

namespace VariantA

inductive ScreenState : Type where
  | splashScreen
  | listScreen
  | postDetailScreen
deriving DecidableEq, Repr

/-- the `bubbles/list` collaborator of variant A, abstracted by the
operations the program calls on it: `SetItems`, `SelectedItem` (with the
`item.(PostMetadata)` cast folded in), `FilterState() == list.Filtering`,
`Update` (key forwarding; the widget's own commands never include quits or
fetches and are dropped), and `SetWidth`/`SetHeight`. -/
structure ListOps (σ : Type) where
  setItems : σ → List PostMetadata → σ
  selectedItem : σ → Option PostMetadata
  filtering : σ → Bool
  update : σ → TeaMsg → σ
  setSize : σ → Int → Int → σ

/-- the `model` struct of variant A. -/
structure Model (σ : Type) where
  currentScreen : ScreenState
  splashMessage : String
  flashMessage : String
  showFlashMessage : Bool
  width : Int
  height : Int
  postList : σ
  loadingPosts : Bool
  postsError : Option GoError
  selectedPost : Option PostMetadata

def initialModel {σ : Type} (l0 : σ) : Model σ :=
  { currentScreen := .splashScreen,
    splashMessage := "Welcome to Space Coast Devs",
    flashMessage := "<Press Enter to Continue>",
    showFlashMessage := true,
    width := 0, height := 0,
    postList := l0,
    loadingPosts := false,
    postsError := none,
    selectedPost := none }

/-- the `Update` method of variant A as a pure step function.  On the list
screen the early `return m, tea.Quit` paths skip the trailing widget update;
every other key path falls through to it, exactly as in the Go `switch`. -/
def update {σ : Type} (ops : ListOps σ) (m : Model σ) : TeaMsg → Model σ × List TeaCmd
  | .windowSize w h =>
    ({ m with width := w, height := h,
              postList := ops.setSize m.postList w h }, [])
  | .key s =>
    match m.currentScreen with
    | .splashScreen =>
      if s = "q" ∨ s = "esc" ∨ s = "ctrl+c" then (m, [.quit])
      else if s = "enter" then
        ({ m with currentScreen := .listScreen, loadingPosts := true,
                  postsError := none,
                  postList := ops.setItems m.postList [] }, [.fetchPosts])
      else (m, [])
    | .listScreen =>
      if ops.filtering m.postList then
        ({ m with postList := ops.update m.postList (.key s) }, [])
      else if s = "q" ∨ s = "esc" then (m, [.quit])
      else if s = "b" ∨ s = "backspace" then
        ({ m with currentScreen := .splashScreen, showFlashMessage := true,
                  postsError := none,
                  postList := ops.update m.postList (.key s) }, [.tick])
      else if s = "enter" then
        match ops.selectedItem m.postList with
        | some post =>
          ({ m with selectedPost := some post,
                    currentScreen := .postDetailScreen,
                    postList := ops.update m.postList (.key s) }, [])
        | none => ({ m with postList := ops.update m.postList (.key s) }, [])
      else ({ m with postList := ops.update m.postList (.key s) }, [])
    | .postDetailScreen =>
      if s = "q" ∨ s = "esc" ∨ s = "b" ∨ s = "backspace" then
        ({ m with currentScreen := .listScreen, selectedPost := none }, [])
      else (m, [])
  | .tick =>
    if m.currentScreen = .splashScreen then
      ({ m with showFlashMessage := !m.showFlashMessage }, [.tick])
    else (m, [])
  | .postsLoaded msg =>
    let m1 := { m with loadingPosts := false }
    match msg.err with
    | some e => ({ m1 with postsError := some e,
                           postList := ops.setItems m1.postList [] }, [])
    | none => ({ m1 with postList := ops.setItems m1.postList msg.posts,
                         postsError := none }, [])

/-- the states reachable from the initial model under arbitrary event
sequences. -/
inductive Reachable {σ : Type} (ops : ListOps σ) (l0 : σ) : Model σ → Prop where
  | init : Reachable ops l0 (initialModel l0)
  | step (m : Model σ) (msg : TeaMsg) :
      Reachable ops l0 m → Reachable ops l0 (update ops m msg).1

end VariantA

/-- any step of variant A's machine that ends on the detail screen either
was already there (and preserved the selected post), or entered it in the
same step in which it stored the widget's selected item. -/
theorem stepPreserveA {σ : Type} (ops : VariantA.ListOps σ) (m : VariantA.Model σ)
    (msg : TeaMsg)
    (hdet : (VariantA.update ops m msg).1.currentScreen = .postDetailScreen) :
    (m.currentScreen = .postDetailScreen ∧
      (VariantA.update ops m msg).1.selectedPost = m.selectedPost) ∨
    (∃ p, ops.selectedItem m.postList = some p ∧
      (VariantA.update ops m msg).1.selectedPost = some p) := by
  revert hdet
  obtain ⟨scr, sm, fm, sf, wd, ht, pl, lp, pe, sp⟩ := m
  cases msg with
  | windowSize w h => exact fun hdet => .inl ⟨hdet, rfl⟩
  | tick =>
    cases scr with
    | splashScreen =>
      intro hdet
      simp [VariantA.update] at hdet
    | listScreen =>
      intro hdet
      simp [VariantA.update] at hdet
    | postDetailScreen =>
      intro hdet
      exact .inl ⟨rfl, by simp [VariantA.update]⟩
  | key s =>
    cases scr with
    | splashScreen =>
      simp only [VariantA.update]
      split_ifs with h1 h2 <;> intro hdet <;> simp at hdet
    | listScreen =>
      simp only [VariantA.update]
      split_ifs with h1 h2 h3 h4
      · intro hdet
        simp at hdet
      · intro hdet
        simp at hdet
      · intro hdet
        simp at hdet
      · cases hsel : ops.selectedItem pl with
        | some p => exact fun hdet => .inr ⟨p, rfl, rfl⟩
        | none =>
          intro hdet
          simp at hdet
      · intro hdet
        simp at hdet
    | postDetailScreen =>
      simp only [VariantA.update]
      split_ifs with h1
      · intro hdet
        simp at hdet
      · exact fun hdet => .inl ⟨by trivial, rfl⟩
  | postsLoaded pm =>
    rcases pm with ⟨posts, err⟩
    cases err with
    | some e => exact fun hdet => .inl ⟨hdet, rfl⟩
    | none => exact fun hdet => .inl ⟨hdet, rfl⟩

/-- C8: in every reachable state of variant A's machine, being on the
detail screen implies a non-null selected post; the transition into the
detail screen and the setting of the selected post happen in one atomic
step (the step stores exactly the widget's selected item); and quit/back
input on the detail screen transitions to the list screen and clears the
selected post. -/
theorem c8_detail_has_selected {σ : Type} (ops : VariantA.ListOps σ) (l0 : σ) :
    (∀ m : VariantA.Model σ, VariantA.Reachable ops l0 m →
      m.currentScreen = .postDetailScreen → m.selectedPost ≠ none) ∧
    (∀ (m : VariantA.Model σ) (msg : TeaMsg),
      m.currentScreen ≠ .postDetailScreen →
      (VariantA.update ops m msg).1.currentScreen = .postDetailScreen →
      ∃ p, ops.selectedItem m.postList = some p ∧
        (VariantA.update ops m msg).1.selectedPost = some p) ∧
    (∀ (m : VariantA.Model σ) (s : String),
      m.currentScreen = .postDetailScreen →
      (s = "q" ∨ s = "esc" ∨ s = "b" ∨ s = "backspace") →
      (VariantA.update ops m (.key s)).1.currentScreen = .listScreen ∧
        (VariantA.update ops m (.key s)).1.selectedPost = none) := by
  refine ⟨?_, ?_, ?_⟩
  · intro m hreach
    induction hreach with
    | init =>
      intro h
      simp [VariantA.initialModel] at h
    | step m msg hr ih =>
      intro hdet
      rcases stepPreserveA ops m msg hdet with ⟨hd, hsel⟩ | ⟨p, _, hsel⟩
      · rw [hsel]
        exact ih hd
      · rw [hsel]
        simp
  · intro m msg hne hdet
    rcases stepPreserveA ops m msg hdet with ⟨hd, _⟩ | h
    · exact absurd hd hne
    · exact h
  · intro m s hscr hks
    have hstep : VariantA.update ops m (.key s) =
        ({ m with currentScreen := .listScreen, selectedPost := none }, []) := by
      simp only [VariantA.update, hscr]
      rw [if_pos hks]
    rw [hstep]
    exact ⟨rfl, rfl⟩

/-- a concrete instantiation of the list-widget collaborator: the widget
state is the item list itself, the selected item is its head, filtering is
off. -/
def simpleOps : VariantA.ListOps (List PostMetadata) :=
  { setItems := fun _ items => items,
    selectedItem := fun l => l.head?,
    filtering := fun _ => false,
    update := fun l _ => l,
    setSize := fun l _ _ => l }

theorem c8_detail_has_selected_witness :
    (VariantA.update simpleOps
      (VariantA.update simpleOps
        (VariantA.update simpleOps (VariantA.initialModel ([] : List PostMetadata))
          (.key "enter")).1
        (.postsLoaded ⟨[q21], none⟩)).1
      (.key "enter")).1.selectedPost ≠ none ∧
    (VariantA.update simpleOps
      (VariantA.update simpleOps
        (VariantA.update simpleOps
          (VariantA.update simpleOps (VariantA.initialModel ([] : List PostMetadata))
            (.key "enter")).1
          (.postsLoaded ⟨[q21], none⟩)).1
        (.key "enter")).1
      (.key "b")).1.currentScreen = .listScreen :=
  ⟨(c8_detail_has_selected simpleOps []).1 _
    (VariantA.Reachable.step _ (.key "enter")
      (VariantA.Reachable.step _ (.postsLoaded ⟨[q21], none⟩)
        (VariantA.Reachable.step _ (.key "enter") VariantA.Reachable.init)))
    (by decide),
   ((c8_detail_has_selected simpleOps []).2.2 _ "b" (by decide) (by decide)).1⟩
